import Mathlib

/-!
Shallow embedding of the core of the `new_seperate_bot` Telegram broadcast
bot: the smart retry system (`core/retry_system.py`), the adaptive rate
limiter (`core/rate_limiter.py`) and the parallel sender (`core/sender.py`).

Conventions of the embedding:
* wall-clock instants are rationals (seconds, as returned by
  `asyncio.get_event_loop().time()` / `datetime.utcnow()`); each primitive
  operation receives the current instant explicitly;
* Python dicts become association lists with unique keys
  (`alookup` / `aset` / `aerase` model `d[k]`, `d[k] = v`, `del d[k]`);
* Python substring tests (`'x' in s`) become `strContains` on the
  character lists of the (already lowercased) strings;
* the cooperative concurrency of `asyncio.gather` is sequentialised: the
  per-channel sends of one post run in list order, which preserves every
  ordering fact between a post's sends, its persistence update and the
  next post that the source's `await gather` establishes;
* the platform transport is an oracle `platform : post id → channel →
  Option String` giving `none` on success and the (lowercased) error text
  of the raised `TelegramError` on failure;
* the external stop flag is an oracle `flag : Nat → Bool` read at its
  k-th poll, and the clock an oracle `tau : Nat → ℚ` read at the k-th
  timed operation.
-/

namespace BotCore

/-- `listIsPrefixL p s` is true when `p` is a prefix of `s`
(models the prefix step of Python substring search). -/
def listIsPrefixL : List Char → List Char → Bool
  | [], _ => true
  | _ :: _, [] => false
  | a :: as, b :: bs => a == b && listIsPrefixL as bs

/-- `containsSub p s` is true when `p` occurs as a contiguous substring
of `s`. -/
def containsSub (p : List Char) : List Char → Bool
  | [] => listIsPrefixL p []
  | c :: rest => listIsPrefixL p (c :: rest) || containsSub p rest

/-- Python's `pat in s` substring test on strings. -/
def strContains (s pat : String) : Bool := containsSub pat.data s.data

/-- Dict lookup `d.get(k)` on an association list. -/
def alookup {α : Type} : List (String × α) → String → Option α
  | [], _ => none
  | (k, v) :: rest, ch => if k = ch then some v else alookup rest ch

/-- Dict assignment `d[k] = v` on an association list: replaces the
binding when the key is present, appends it otherwise. -/
def aset {α : Type} : List (String × α) → String → α → List (String × α)
  | [], ch, v => [(ch, v)]
  | (k, w) :: rest, ch, v =>
      if k = ch then (ch, v) :: rest else (k, w) :: aset rest ch v

/-- Dict deletion `del d[k]` on an association list with unique keys:
removes the first binding of the key. -/
def aerase {α : Type} : List (String × α) → String → List (String × α)
  | [], _ => []
  | (k, v) :: rest, ch => if k = ch then rest else (k, v) :: aerase rest ch

/-! ## core/retry_system.py — SmartRetrySystem -/

/-- The three-way error taxonomy of `SmartRetrySystem.classify_error`. -/
inductive ErrorKind
  | permanent
  | rate_limit
  | temporary
deriving DecidableEq, Repr

/-- One appended entry of `failure_history`
(`{'type', 'msg', 'post_id', 'time'}`). -/
structure FailureRecord where
  etype : ErrorKind
  msg : String
  post_id : Option Nat
  time : ℚ
deriving DecidableEq, Repr

/-- The mutable state and configuration of a `SmartRetrySystem` instance. -/
structure SmartRetrySystem where
  max_retries : Nat
  alert_threshold : Nat
  skip_duration_minutes : ℚ
  skip_list : List (String × ℚ)
  failure_history : List (String × List FailureRecord)
  consecutive_failures : List (String × Nat)
deriving DecidableEq, Repr

/-- `SmartRetrySystem.__init__` (defaults: `max_retries=3`,
`alert_threshold=5`, `skip_duration_minutes=5`). -/
def SmartRetrySystem.init (max_retries alert_threshold : Nat)
    (skip_duration_minutes : ℚ) : SmartRetrySystem :=
  { max_retries := max_retries
    alert_threshold := alert_threshold
    skip_duration_minutes := skip_duration_minutes
    skip_list := []
    failure_history := []
    consecutive_failures := [] }

/-- The phrase lists of `classify_error`; the error text is matched
already lowercased (`str(error).lower()`). -/
def permanentPhrases : List String :=
  ["bot was kicked", "bot was blocked", "chat not found",
   "user is deactivated", "channel is private", "bot is not a member",
   "forbidden"]

/-- Phrases that classify an error as flood control. -/
def rateLimitPhrases : List String :=
  ["flood", "too many requests", "retry after"]

/-- `SmartRetrySystem.classify_error`: permanent phrases first, then
rate-limit phrases, else temporary. -/
def SmartRetrySystem.classify_error (error_msg : String) : ErrorKind :=
  if permanentPhrases.any (fun x => strContains error_msg x) then
    ErrorKind.permanent
  else if rateLimitPhrases.any (fun x => strContains error_msg x) then
    ErrorKind.rate_limit
  else
    ErrorKind.temporary

/-- `SmartRetrySystem.record_failure`: append to `failure_history`;
increment `consecutive_failures` unless the error is temporary; add the
channel to the time-based skip list when the error is permanent or the
(just-updated) consecutive count is at least 1. -/
def SmartRetrySystem.record_failure (s : SmartRetrySystem)
    (channel_id : String) (error_msg : String) (post_id : Option Nat)
    (now : ℚ) : SmartRetrySystem :=
  let error_type := SmartRetrySystem.classify_error error_msg
  let hist :=
    aset s.failure_history channel_id
      ((alookup s.failure_history channel_id).getD [] ++
        [{ etype := error_type, msg := error_msg, post_id := post_id,
           time := now }])
  let consec :=
    if error_type ≠ ErrorKind.temporary then
      aset s.consecutive_failures channel_id
        ((alookup s.consecutive_failures channel_id).getD 0 + 1)
    else s.consecutive_failures
  let skip :=
    if error_type = ErrorKind.permanent ∨
        1 ≤ (alookup consec channel_id).getD 0 then
      aset s.skip_list channel_id now
    else s.skip_list
  { s with failure_history := hist, consecutive_failures := consec,
           skip_list := skip }

/-- `SmartRetrySystem.record_success`: reset the consecutive counter to 0
and drop any skip entry. -/
def SmartRetrySystem.record_success (s : SmartRetrySystem)
    (channel_id : String) : SmartRetrySystem :=
  { s with
    consecutive_failures := aset s.consecutive_failures channel_id 0
    skip_list :=
      if (alookup s.skip_list channel_id).isSome then
        aerase s.skip_list channel_id
      else s.skip_list }

/-- `SmartRetrySystem.should_skip`: no entry means no skip; an entry whose
elapsed minutes reach `skip_duration_minutes` is removed (skip expired);
otherwise the channel is still skipped. Returns the boolean together with
the updated state. -/
def SmartRetrySystem.should_skip (s : SmartRetrySystem)
    (channel_id : String) (now : ℚ) : Bool × SmartRetrySystem :=
  match alookup s.skip_list channel_id with
  | none => (false, s)
  | some skip_time =>
      if s.skip_duration_minutes ≤ (now - skip_time) / 60 then
        (false, { s with skip_list := aerase s.skip_list channel_id })
      else
        (true, s)

/-- `SmartRetrySystem.needs_alert`: the consecutive-failure count reached
the alert threshold. -/
def SmartRetrySystem.needs_alert (s : SmartRetrySystem)
    (channel_id : String) : Bool :=
  s.alert_threshold ≤ (alookup s.consecutive_failures channel_id).getD 0

/-! ## core/rate_limiter.py — AdaptiveRateLimiter -/

/-- The mutable state and configuration of an `AdaptiveRateLimiter`
instance. `chat_tokens` maps a chat id to its `(tokens, last_update)`
pair. -/
structure AdaptiveRateLimiter where
  base_global_rate : ℚ
  per_chat_rate : ℚ
  burst_allowance : ℚ
  global_tokens : ℚ
  global_last_update : ℚ
  chat_tokens : List (String × (ℚ × ℚ))
  current_rate : ℚ
  flood_detected : Bool
  last_flood_time : Option ℚ
  success_count : Nat
deriving DecidableEq, Repr

/-- `AdaptiveRateLimiter.__init__` (defaults `global_rate=25`,
`per_chat_rate=18`, `burst_allowance=50`); `t0` is the event-loop time at
construction. -/
def AdaptiveRateLimiter.init (global_rate per_chat_rate burst_allowance
    t0 : ℚ) : AdaptiveRateLimiter :=
  { base_global_rate := global_rate
    per_chat_rate := per_chat_rate
    burst_allowance := burst_allowance
    global_tokens := burst_allowance
    global_last_update := t0
    chat_tokens := []
    current_rate := global_rate
    flood_detected := false
    last_flood_time := none
    success_count := 0 }

/-- `AdaptiveRateLimiter.acquire_global`: replenish the global bucket at
the current adaptive rate (capped at the burst allowance), then either
consume one token with no wait, or wait `(1 - tokens)/current_rate`
seconds and leave the bucket empty. Returns the wait time with the
updated state. -/
def AdaptiveRateLimiter.acquire_global (s : AdaptiveRateLimiter)
    (now : ℚ) : ℚ × AdaptiveRateLimiter :=
  let time_passed := now - s.global_last_update
  let tokens0 := s.global_tokens + time_passed * s.current_rate
  let tokens :=
    if s.burst_allowance < tokens0 then s.burst_allowance else tokens0
  if tokens < 1 then
    let wait_time := (1 - tokens) / s.current_rate
    (wait_time,
      { s with global_tokens := 0, global_last_update := now })
  else
    (0, { s with global_tokens := tokens - 1, global_last_update := now })

/-- `AdaptiveRateLimiter.acquire_chat`: per-chat bucket (18 tokens per 60
seconds), lazily created full on first use; the stored timestamp is the
event-loop time after any wait. -/
def AdaptiveRateLimiter.acquire_chat (s : AdaptiveRateLimiter)
    (chat_id : String) (now : ℚ) : ℚ × AdaptiveRateLimiter :=
  let (tokens1, last_update) :=
    (alookup s.chat_tokens chat_id).getD (s.per_chat_rate, now)
  let time_passed := now - last_update
  let tokens2 := tokens1 + time_passed * (s.per_chat_rate / 60)
  let tokens :=
    if s.per_chat_rate < tokens2 then s.per_chat_rate else tokens2
  if tokens < 1 then
    let wait_time := (1 - tokens) / (s.per_chat_rate / 60)
    (wait_time,
      { s with chat_tokens := aset s.chat_tokens chat_id (0, now + wait_time) })
  else
    (0, { s with chat_tokens := aset s.chat_tokens chat_id (tokens - 1, now) })

/-- `AdaptiveRateLimiter.acquire`: the global gate, then the per-chat
gate at the instant the global wait ends. -/
def AdaptiveRateLimiter.acquire (s : AdaptiveRateLimiter)
    (chat_id : String) (now : ℚ) : AdaptiveRateLimiter :=
  let (wait_time, s1) := AdaptiveRateLimiter.acquire_global s now
  (AdaptiveRateLimiter.acquire_chat s1 chat_id (now + wait_time)).2

/-- `AdaptiveRateLimiter.report_flood_control`: record the flood, damp
the adaptive rate by 0.7 with floor 10. -/
def AdaptiveRateLimiter.report_flood_control (s : AdaptiveRateLimiter)
    (now : ℚ) : AdaptiveRateLimiter :=
  { s with
    flood_detected := true
    last_flood_time := some now
    current_rate := max (s.current_rate * 0.7) 10 }

/-- `AdaptiveRateLimiter.report_success`: bump the success counter; when
a flood was seen, the counter reached 50 and more than 60 seconds passed
since the last flood (Python truthiness also requires that timestamp to
be nonzero), grow the rate by 1.1 capped at the baseline and reset the
counter, clearing the flood mark when the baseline is reached. -/
def AdaptiveRateLimiter.report_success (s : AdaptiveRateLimiter)
    (now : ℚ) : AdaptiveRateLimiter :=
  let s1 := { s with success_count := s.success_count + 1 }
  if s1.flood_detected ∧ 50 ≤ s1.success_count then
    match s1.last_flood_time with
    | some t =>
        if t ≠ 0 ∧ 60 < now - t then
          let s2 := { s1 with
            current_rate := min (s1.current_rate * 1.1) s1.base_global_rate
            success_count := 0 }
          if s2.base_global_rate ≤ s2.current_rate then
            { s2 with flood_detected := false }
          else s2
        else s1
    | none => s1
  else s1

/-- One external call to the adaptive controller, with the event-loop
instant at which it happens. -/
inductive RLCall
  | flood (now : ℚ)
  | succ (now : ℚ)
deriving DecidableEq, Repr

/-- Apply a sequence of `report_flood_control` / `report_success` calls. -/
def applyCalls (s : AdaptiveRateLimiter) : List RLCall → AdaptiveRateLimiter
  | [] => s
  | RLCall.flood t :: rest =>
      applyCalls (AdaptiveRateLimiter.report_flood_control s t) rest
  | RLCall.succ t :: rest =>
      applyCalls (AdaptiveRateLimiter.report_success s t) rest

/-- Iterate `record_failure` for one channel over a list of
`(error message, instant)` pairs. -/
def recordFailures (s : SmartRetrySystem) (channel_id : String) :
    List (String × ℚ) → SmartRetrySystem
  | [] => s
  | (msg, t) :: rest =>
      recordFailures
        (SmartRetrySystem.record_failure s channel_id msg none t)
        channel_id rest

/-! ## core/sender.py — ParallelSender -/

/-- A scheduled post. Only the id drives the control flow of the sender
(the content fields select which platform call is made, and every such
call is observed only through the platform oracle), so the content is
elided from the embedding. -/
structure Post where
  id : Nat
deriving DecidableEq, Repr

/-- An admin notification of the escalation path: `_notify_first_failure`,
`_notify_second_failure`, or `_notify_admin_with_actions` with its
failure count. -/
inductive Notify
  | first
  | second
  | actions (failure_count : Nat)
deriving DecidableEq, Repr

/-- Observable events of one `send_batch_to_all_channels` run, in program
order. `sendEv retryPhase pid ch ok` is a completed platform call (the
main fan-out when `retryPhase = false`, the retry pass when `true`);
`skipEv` is a send short-circuited by the skip list; `persist pid n` is
the `UPDATE posts SET posted = 1 ...` statement with its success count;
`poll b` is one read of the emergency-stop flag. -/
inductive Event
  | poll (b : Bool)
  | sendEv (retryPhase : Bool) (pid : Nat) (ch : String) (ok : Bool)
  | skipEv (pid : Nat) (ch : String)
  | floodEv
  | notifyEv (ch : String) (n : Notify)
  | persist (pid : Nat) (succ : Nat)
deriving DecidableEq, Repr

/-- The oracles of a run: the clock (`tau k` is the event-loop/UTC time
of the k-th timed operation), the emergency-stop flag (`flag k` is its
k-th poll) and the platform transport (`platform pid ch` is `none` for a
delivered message, or the lowercased error text of the `TelegramError`). -/
structure Env where
  tau : Nat → ℚ
  flag : Nat → Bool
  platform : Nat → String → Option String

/-- The state a `ParallelSender` instance owns or mutates:
the rate limiter, the retry system and the `admin_notified` dict, plus
the two oracle cursors of the embedding (`step` counts timed operations,
`polls` counts stop-flag reads). -/
structure ParallelSender where
  rate_limiter : AdaptiveRateLimiter
  retry_system : SmartRetrySystem
  admin_notified : List (String × Nat)
  step : Nat
  polls : Nat
deriving DecidableEq, Repr

/-- `ParallelSender.send_post_to_channel`: skip-list check (returning
False consumes no rate token and makes no platform call), rate-limiter
acquisition, the platform call, then the success bookkeeping
(`report_success`, `record_success`, clearing `admin_notified`) or the
failure bookkeeping (flood signal iff the error text contains `'flood'`
or `'too many requests'`, `record_failure`, and the escalating admin
notifications keyed on the updated consecutive-failure count). -/
def ParallelSender.send_post_to_channel (env : Env) (retryPhase : Bool)
    (s : ParallelSender) (pid : Nat) (ch : String) :
    Bool × ParallelSender × List Event :=
  let now := env.tau s.step
  let s := { s with step := s.step + 1 }
  let (skipped, rs1) := SmartRetrySystem.should_skip s.retry_system ch now
  if skipped then
    (false, { s with retry_system := rs1 }, [Event.skipEv pid ch])
  else
    let rl1 := AdaptiveRateLimiter.acquire s.rate_limiter ch now
    match env.platform pid ch with
    | none =>
        let rl2 := AdaptiveRateLimiter.report_success rl1 now
        let rs2 := SmartRetrySystem.record_success rs1 ch
        let adm :=
          if (alookup s.admin_notified ch).isSome then
            aerase s.admin_notified ch
          else s.admin_notified
        (true,
          { s with rate_limiter := rl2, retry_system := rs2,
                   admin_notified := adm },
          [Event.sendEv retryPhase pid ch true])
    | some error_msg =>
        let floodHit :=
          strContains error_msg "flood" ||
          strContains error_msg "too many requests"
        let rl2 :=
          if floodHit then
            AdaptiveRateLimiter.report_flood_control rl1 now
          else rl1
        let rs2 :=
          SmartRetrySystem.record_failure rs1 ch error_msg (some pid) now
        let failure_count :=
          (alookup rs2.consecutive_failures ch).getD 0
        let notifyAdm : Option Notify × List (String × Nat) :=
          if failure_count = 1 then (some Notify.first, s.admin_notified)
          else if failure_count = 2 then
            (some Notify.second, s.admin_notified)
          else if 3 ≤ failure_count ∧ alookup s.admin_notified ch = none then
            (some (Notify.actions failure_count),
              aset s.admin_notified ch failure_count)
          else (none, s.admin_notified)
        (false,
          { s with rate_limiter := rl2, retry_system := rs2,
                   admin_notified := notifyAdm.2 },
          [Event.sendEv retryPhase pid ch false] ++
            (if floodHit then [Event.floodEv] else []) ++
            (match notifyAdm.1 with
             | some n => [Event.notifyEv ch n]
             | none => []))

/-- One read of the emergency-stop flag. -/
def pollFlag (env : Env) (s : ParallelSender) :
    Bool × ParallelSender × List Event :=
  (env.flag s.polls, { s with polls := s.polls + 1 },
    [Event.poll (env.flag s.polls)])

/-- The `asyncio.gather` fan-out of one post over all channels,
sequentialised in channel order; returns the per-channel results in
order. -/
def sendToChannels (env : Env) (s : ParallelSender) (pid : Nat) :
    List String → ParallelSender × List Event × List Bool
  | [] => (s, [], [])
  | ch :: rest =>
      let r1 := ParallelSender.send_post_to_channel env false s pid ch
      let r2 := sendToChannels env r1.2.1 pid rest
      (r2.1, r1.2.2 ++ r2.2.1, r1.1 :: r2.2.2)

/-- The main per-post loop of `send_batch_to_all_channels`: poll the stop
flag before each post (breaking on True), fan the post out to every
channel, collect the failed `(post id, channel)` pairs, and persist the
post's completion before moving on. Returns the state, the trace and the
collected `failed_sends`. -/
def mainLoop (env : Env) (channel_ids : List String) :
    ParallelSender → List Post →
    ParallelSender × List Event × List (Nat × String)
  | s, [] => (s, [], [])
  | s, post :: rest =>
      let p := pollFlag env s
      if p.1 then (p.2.1, p.2.2, [])
      else
        let r := sendToChannels env p.2.1 post.id channel_ids
        let failed :=
          (channel_ids.zip r.2.2).filterMap
            (fun cr => if cr.2 then none else some (post.id, cr.1))
        let successful := (r.2.2.filter (fun b => b)).length
        let tail := mainLoop env channel_ids r.1 rest
        (tail.1,
          p.2.2 ++ r.2.1 ++ [Event.persist post.id successful] ++ tail.2.1,
          failed ++ tail.2.2)

/-- The retry pass of `send_batch_to_all_channels`: for each collected
failure, fetch the post by id (`SELECT * FROM posts WHERE id = ?`) and,
when found, re-run `send_post_to_channel`. The stop flag is not read
inside this loop. -/
def retryLoop (env : Env) (posts : List Post) :
    ParallelSender → List (Nat × String) → ParallelSender × List Event
  | s, [] => (s, [])
  | s, (pid, ch) :: rest =>
      match posts.find? (fun p => p.id == pid) with
      | none => retryLoop env posts s rest
      | some _ =>
          let r := ParallelSender.send_post_to_channel env true s pid ch
          let tail := retryLoop env posts r.2.1 rest
          (tail.1, r.2.2 ++ tail.2)

/-- `ParallelSender.send_batch_to_all_channels`: an initial stop-flag
check, the main per-post loop, and — when there are failed sends and a
single further stop-flag read comes back False — one retry pass. -/
def ParallelSender.send_batch_to_all_channels (env : Env)
    (s : ParallelSender) (posts : List Post)
    (channel_ids : List String) : ParallelSender × List Event :=
  let p := pollFlag env s
  if p.1 then (p.2.1, p.2.2)
  else
    let m := mainLoop env channel_ids p.2.1 posts
    if m.2.2.isEmpty then (m.1, p.2.2 ++ m.2.1)
    else
      let p2 := pollFlag env m.1
      if p2.1 then (p2.2.1, p.2.2 ++ m.2.1 ++ p2.2.2)
      else
        let r := retryLoop env posts p2.2.1 m.2.2
        (r.1, p.2.2 ++ m.2.1 ++ p2.2.2 ++ r.2)

/-! ## Concrete instances used by witnesses and counterexamples -/

/-- A fresh retry system with the source's default configuration. -/
def rsInit : SmartRetrySystem := SmartRetrySystem.init 3 5 5

/-- A fresh rate limiter with the source's default configuration,
constructed at instant 0. -/
def rlInit : AdaptiveRateLimiter := AdaptiveRateLimiter.init 25 18 50 0

/-- A fresh sender over the default collaborators. -/
def psInit : ParallelSender :=
  { rate_limiter := rlInit, retry_system := rsInit, admin_notified := []
    step := 0, polls := 0 }

/-- A retry system holding one skip entry recorded at instant 0. -/
def rsSkipAt0 : SmartRetrySystem := { rsInit with skip_list := [("c", 0)] }

/-- A retry system with one prior non-transient failure on channel c. -/
def rsOneFailure : SmartRetrySystem :=
  { rsInit with consecutive_failures := [("c", 1)] }

/-- A retry system with two prior non-transient failures on channel c and
a cleared skip list (the admin `clear_skip_list` action leaves exactly
this shape). -/
def rsTwoFailures : SmartRetrySystem :=
  { rsInit with consecutive_failures := [("c", 2)] }

/-- A sender whose retry system is `rsTwoFailures`. -/
def psTwoFailures : ParallelSender :=
  { psInit with retry_system := rsTwoFailures }

/-- Five transient (network timeout) failures, one per instant `0..4`. -/
def fiveTimeouts : List (String × ℚ) :=
  [("timeout", 0), ("timeout", 1), ("timeout", 2), ("timeout", 3),
   ("timeout", 4)]

/-- A rate limiter configured at the flood floor (`global_rate = 10`). -/
def rlAtFloor : AdaptiveRateLimiter := AdaptiveRateLimiter.init 10 18 50 0

/-- A rate limiter mid-recovery: damped rate 20, one flood seen at
instant 5, 49 successes accumulated. -/
def rlRecovering : AdaptiveRateLimiter :=
  { AdaptiveRateLimiter.init 25 18 50 0 with
    current_rate := 20, flood_detected := true, last_flood_time := some 5
    success_count := 49 }

/-- Oracles: frozen clock, stop flag never set, every platform call
fails with a network timeout. -/
def envTimeout : Env :=
  { tau := fun _ => 0, flag := fun _ => false
    platform := fun _ _ => some "timeout" }

/-- Oracles: frozen clock, stop flag never set, every platform call
succeeds. -/
def envOk : Env :=
  { tau := fun _ => 0, flag := fun _ => false
    platform := fun _ _ => none }

/-- Oracles: every platform call raises `retry after 30` (an explicit
rate-limit signal phrased without `flood`/`too many requests`). -/
def envRetryAfter : Env :=
  { tau := fun _ => 0, flag := fun _ => false
    platform := fun _ _ => some "retry after 30" }

/-- Oracles: every platform call raises a flood-control error. -/
def envFlood : Env :=
  { tau := fun _ => 0, flag := fun _ => false
    platform := fun _ _ => some "flood control exceeded" }

/-- Oracles: every platform call raises `forbidden` (permanent). -/
def envForbidden : Env :=
  { tau := fun _ => 0, flag := fun _ => false
    platform := fun _ _ => some "forbidden" }

/-- Oracles: the stop flag is already set at the first poll. -/
def envStopped : Env :=
  { tau := fun _ => 0, flag := fun _ => true
    platform := fun _ _ => none }

/-! ## Association-list lemmas -/

theorem alookup_aset_self {α : Type} (l : List (String × α)) (k : String)
    (v : α) : alookup (aset l k v) k = some v := by
  induction l with
  | nil => simp [aset, alookup]
  | cons p rest ih =>
      by_cases h : p.1 = k
      · simp [aset, alookup, h]
      · simp [aset, alookup, h, ih]

/-! ## C1 — should_skip -/

/-- C1: for every channel id, `should_skip` returns false (state
untouched) when the channel has no skip entry; when the entry's skip
window has elapsed (`now ≥ skip time + 60·skip_duration_minutes`
seconds) it removes the entry and returns false; otherwise it returns
true and leaves the entry in place. -/
theorem should_skip_spec (s : SmartRetrySystem) (ch : String) (now : ℚ) :
    (alookup s.skip_list ch = none →
      SmartRetrySystem.should_skip s ch now = (false, s)) ∧
    (∀ t, alookup s.skip_list ch = some t →
      t + 60 * s.skip_duration_minutes ≤ now →
      SmartRetrySystem.should_skip s ch now =
        (false, { s with skip_list := aerase s.skip_list ch })) ∧
    (∀ t, alookup s.skip_list ch = some t →
      now < t + 60 * s.skip_duration_minutes →
      SmartRetrySystem.should_skip s ch now = (true, s)) := by
  refine ⟨fun h => ?_, fun t h hle => ?_, fun t h hlt => ?_⟩
  · simp [SmartRetrySystem.should_skip, h]
  · have hcond : s.skip_duration_minutes ≤ (now - t) / 60 := by
      rw [le_div_iff₀ (by norm_num : (0:ℚ) < 60)]
      linarith
    simp [SmartRetrySystem.should_skip, h, hcond]
  · have hcond : ¬ (s.skip_duration_minutes ≤ (now - t) / 60) := by
      rw [le_div_iff₀ (by norm_num : (0:ℚ) < 60)]
      push_neg
      linarith
    simp [SmartRetrySystem.should_skip, h, hcond]

/-- C1 witness: a skip entry recorded at instant 0 with the default
5-minute window has expired at instant 300 and is removed. -/
theorem should_skip_spec_witness :
    SmartRetrySystem.should_skip rsSkipAt0 "c" 300 =
      (false, { rsSkipAt0 with skip_list := aerase rsSkipAt0.skip_list "c" }) :=
  (should_skip_spec rsSkipAt0 "c" 300).2.1 0 rfl (by norm_num [rsSkipAt0, rsInit, SmartRetrySystem.init])

/-! ## C2 — record_failure on transient errors -/

/-- A single transient `record_failure`: history appended, consecutive
counter untouched, and the skip list untouched exactly when the prior
consecutive count is 0 (refreshed to `now` otherwise). -/
theorem record_failure_temporary (s : SmartRetrySystem) (ch msg : String)
    (pid : Option Nat) (now : ℚ)
    (h : SmartRetrySystem.classify_error msg = ErrorKind.temporary) :
    (SmartRetrySystem.record_failure s ch msg pid now).consecutive_failures =
      s.consecutive_failures ∧
    (SmartRetrySystem.record_failure s ch msg pid now).skip_list =
      (if 1 ≤ (alookup s.consecutive_failures ch).getD 0 then
        aset s.skip_list ch now
      else s.skip_list) ∧
    (SmartRetrySystem.record_failure s ch msg pid now).alert_threshold =
      s.alert_threshold ∧
    alookup (SmartRetrySystem.record_failure s ch msg pid now).failure_history
        ch =
      some ((alookup s.failure_history ch).getD [] ++
        [{ etype := ErrorKind.temporary, msg := msg, post_id := pid,
           time := now }]) := by
  refine ⟨?_, ?_, ?_, ?_⟩
  · simp [SmartRetrySystem.record_failure, h]
  · simp only [SmartRetrySystem.record_failure, h]
    simp
  · simp [SmartRetrySystem.record_failure]
  · simp only [SmartRetrySystem.record_failure, h]
    simp [alookup_aset_self]

/-- Iterated transient failures on one channel: the consecutive counter
never moves, the alert threshold never moves, and from a channel with a
clean consecutive count the skip list never moves either. -/
theorem recordFailures_temporary (s : SmartRetrySystem) (ch : String)
    (l : List (String × ℚ))
    (hl : ∀ m ∈ l, SmartRetrySystem.classify_error m.1 = ErrorKind.temporary) :
    (recordFailures s ch l).consecutive_failures = s.consecutive_failures ∧
    (recordFailures s ch l).alert_threshold = s.alert_threshold ∧
    ((alookup s.consecutive_failures ch).getD 0 = 0 →
      (recordFailures s ch l).skip_list = s.skip_list) := by
  induction l generalizing s with
  | nil => exact ⟨rfl, rfl, fun _ => rfl⟩
  | cons m rest ih =>
      obtain ⟨mmsg, mt⟩ := m
      have hm := hl (mmsg, mt) (by simp)
      have hstep := record_failure_temporary s ch mmsg none mt hm
      have htail :=
        ih (SmartRetrySystem.record_failure s ch mmsg none mt)
          (fun x hx => hl x (by simp [hx]))
      refine ⟨?_, ?_, ?_⟩
      · simp only [recordFailures]
        rw [htail.1, hstep.1]
      · simp only [recordFailures]
        rw [htail.2.1, hstep.2.2.1]
      · intro h0
        simp only [recordFailures]
        rw [htail.2.2 (by rw [hstep.1]; exact h0)]
        rw [hstep.2.1, if_neg]
        omega

/-- C2 counterexample: on a channel with one prior non-transient failure,
a transient (`timeout`) failure adds/refreshes a skip entry, so the skip
state is not left unchanged. -/
theorem record_failure_transient_cx :
    ¬ (SmartRetrySystem.classify_error "timeout" = ErrorKind.temporary →
        (alookup rsOneFailure.skip_list "c").isSome =
          (alookup (SmartRetrySystem.record_failure rsOneFailure "c" "timeout"
              none 7).skip_list "c").isSome) := by
  decide

/-- C2 (amended): a Transient failure appends to the failure history and
never increments `consecutiveFailures`; the skip state is unchanged when
the channel's prior consecutive count is 0 — so 5 consecutive Transient
failures from a clean channel never skip it and leave `NeedsAlert`
unchanged (false) — but when the prior count is ≥ 1 the transient
failure refreshes the skip entry's timestamp to `now`. -/
theorem record_failure_transient_spec (s : SmartRetrySystem)
    (ch msg : String) (pid : Option Nat) (now : ℚ)
    (h : SmartRetrySystem.classify_error msg = ErrorKind.temporary) :
    (SmartRetrySystem.record_failure s ch msg pid now).consecutive_failures =
      s.consecutive_failures ∧
    alookup (SmartRetrySystem.record_failure s ch msg pid now).failure_history
        ch =
      some ((alookup s.failure_history ch).getD [] ++
        [{ etype := ErrorKind.temporary, msg := msg, post_id := pid,
           time := now }]) ∧
    ((alookup s.consecutive_failures ch).getD 0 = 0 →
      (SmartRetrySystem.record_failure s ch msg pid now).skip_list =
        s.skip_list) ∧
    (1 ≤ (alookup s.consecutive_failures ch).getD 0 →
      (SmartRetrySystem.record_failure s ch msg pid now).skip_list =
        aset s.skip_list ch now) ∧
    (∀ l : List (String × ℚ),
      (∀ m ∈ l,
        SmartRetrySystem.classify_error m.1 = ErrorKind.temporary) →
      (recordFailures s ch l).consecutive_failures =
        s.consecutive_failures ∧
      ((alookup s.consecutive_failures ch).getD 0 = 0 →
        (recordFailures s ch l).skip_list = s.skip_list ∧
        SmartRetrySystem.needs_alert (recordFailures s ch l) ch =
          SmartRetrySystem.needs_alert s ch)) := by
  have hstep := record_failure_temporary s ch msg pid now h
  refine ⟨hstep.1, hstep.2.2.2, ?_, ?_, ?_⟩
  · intro h0
    rw [hstep.2.1, if_neg]
    omega
  · intro h1
    rw [hstep.2.1, if_pos h1]
  · intro l hl
    have hit := recordFailures_temporary s ch l hl
    refine ⟨hit.1, fun h0 => ⟨hit.2.2 h0, ?_⟩⟩
    rw [SmartRetrySystem.needs_alert, SmartRetrySystem.needs_alert,
      hit.1, hit.2.1]

/-- C2 witness: five consecutive timeouts from a fresh retry system leave
the consecutive counter, the skip list and `needs_alert` exactly as they
were (and `needs_alert` is false). -/
theorem record_failure_transient_spec_witness :
    (recordFailures rsInit "c" fiveTimeouts).consecutive_failures =
      rsInit.consecutive_failures ∧
    (recordFailures rsInit "c" fiveTimeouts).skip_list = rsInit.skip_list ∧
    SmartRetrySystem.needs_alert (recordFailures rsInit "c" fiveTimeouts)
      "c" = SmartRetrySystem.needs_alert rsInit "c" ∧
    SmartRetrySystem.needs_alert rsInit "c" = false := by
  have h :=
    (record_failure_transient_spec rsInit "c" "timeout" none 0
      (by decide)).2.2.2.2 fiveTimeouts (by decide)
  have h2 := h.2 (by decide)
  exact ⟨h.1, h2.1, h2.2, by decide⟩

/-! ## C4 — report_flood_control and the rate floor -/

/-- C4 counterexample: at the floor (configured global rate 10) a flood
signal leaves the effective rate at 10 — it does not strictly decrease,
and it is not multiplied by 0.7. -/
theorem report_flood_control_cx :
    ¬ ((AdaptiveRateLimiter.report_flood_control rlAtFloor 5).current_rate <
        rlAtFloor.current_rate) := by
  norm_num [AdaptiveRateLimiter.report_flood_control, rlAtFloor,
    AdaptiveRateLimiter.init, max_def]

/-- C4 (amended): each `report_flood_control` call sets the effective
rate to `max (rate · 0.7) 10`: the result never drops below the floor
10; it strictly decreases whenever the current rate is above the floor;
and it equals exactly 0.7 times the current rate whenever that product
is still at least the floor (rate ≥ 100/7). -/
theorem report_flood_control_spec (s : AdaptiveRateLimiter) (now : ℚ) :
    (10 ≤ (AdaptiveRateLimiter.report_flood_control s now).current_rate) ∧
    (10 < s.current_rate →
      (AdaptiveRateLimiter.report_flood_control s now).current_rate <
        s.current_rate) ∧
    (100 / 7 ≤ s.current_rate →
      (AdaptiveRateLimiter.report_flood_control s now).current_rate =
        s.current_rate * 0.7) := by
  have h07 : (0.7 : ℚ) = 7 / 10 := by norm_num
  refine ⟨le_max_right _ _, fun h => ?_, fun h => ?_⟩
  · show max (s.current_rate * 0.7) 10 < s.current_rate
    apply max_lt _ h
    rw [h07]
    linarith
  · show max (s.current_rate * 0.7) 10 = s.current_rate * 0.7
    apply max_eq_left
    rw [h07]
    linarith

/-- C4 witness: from the default rate 25 a flood signal strictly lowers
the rate, to 17.5 = 25 · 0.7, and stays at or above the floor. -/
theorem report_flood_control_spec_witness :
    10 ≤ (AdaptiveRateLimiter.report_flood_control rlInit 5).current_rate ∧
    (AdaptiveRateLimiter.report_flood_control rlInit 5).current_rate <
      rlInit.current_rate ∧
    (AdaptiveRateLimiter.report_flood_control rlInit 5).current_rate =
      rlInit.current_rate * 0.7 :=
  ⟨(report_flood_control_spec rlInit 5).1,
    (report_flood_control_spec rlInit 5).2.1
      (by norm_num [rlInit, AdaptiveRateLimiter.init]),
    (report_flood_control_spec rlInit 5).2.2
      (by norm_num [rlInit, AdaptiveRateLimiter.init])⟩

/-! ## C9 — flood signals and the burst allowance -/

/-- C9 counterexample: right after a flood signal on a fresh limiter the
global token balance is still the full burst allowance of 50, far above
the single-token level — the burst allowance is not disabled. -/
theorem report_flood_control_burst_cx :
    ¬ ((AdaptiveRateLimiter.report_flood_control
        (AdaptiveRateLimiter.init 25 18 50 100) 100).global_tokens ≤ 1) := by
  norm_num [AdaptiveRateLimiter.report_flood_control,
    AdaptiveRateLimiter.init]

/-- C9 (amended): `report_flood_control` leaves every token balance
untouched (global tokens, per-chat buckets, the refill timestamp), so
burst tokens accumulated before the flood signal remain spendable: with
at least one token banked, the next `acquire_global` still proceeds with
zero wait. Only the refill rate is damped. -/
theorem report_flood_control_burst_spec (s : AdaptiveRateLimiter)
    (now now2 : ℚ) (hlu : s.global_last_update ≤ now2)
    (htok : 1 ≤ s.global_tokens) (hburst : 1 ≤ s.burst_allowance) :
    (AdaptiveRateLimiter.report_flood_control s now).global_tokens =
      s.global_tokens ∧
    (AdaptiveRateLimiter.report_flood_control s now).chat_tokens =
      s.chat_tokens ∧
    (AdaptiveRateLimiter.report_flood_control s now).global_last_update =
      s.global_last_update ∧
    (AdaptiveRateLimiter.acquire_global
        (AdaptiveRateLimiter.report_flood_control s now) now2).1 = 0 := by
  refine ⟨rfl, rfl, rfl, ?_⟩
  have hrate : (0:ℚ) ≤ max (s.current_rate * 0.7) 10 :=
    le_trans (by norm_num) (le_max_right _ _)
  have hrepl : (0:ℚ) ≤ (now2 - s.global_last_update) *
      max (s.current_rate * 0.7) 10 :=
    mul_nonneg (by linarith) hrate
  rw [AdaptiveRateLimiter.acquire_global]
  simp only [AdaptiveRateLimiter.report_flood_control]
  split
  · rw [if_neg]
    push_neg
    linarith
  · rw [if_neg]
    push_neg
    linarith

/-- C9 witness: on the fresh default limiter (50 banked burst tokens) a
flood signal keeps all 50 tokens and the next acquisition waits 0. -/
theorem report_flood_control_burst_spec_witness :
    (AdaptiveRateLimiter.report_flood_control rlInit 0).global_tokens =
      rlInit.global_tokens ∧
    (AdaptiveRateLimiter.report_flood_control rlInit 0).chat_tokens =
      rlInit.chat_tokens ∧
    (AdaptiveRateLimiter.report_flood_control rlInit 0).global_last_update =
      rlInit.global_last_update ∧
    (AdaptiveRateLimiter.acquire_global
        (AdaptiveRateLimiter.report_flood_control rlInit 0) 0).1 = 0 :=
  report_flood_control_burst_spec rlInit 0 0
    (by norm_num [rlInit, AdaptiveRateLimiter.init])
    (by norm_num [rlInit, AdaptiveRateLimiter.init])
    (by norm_num [rlInit, AdaptiveRateLimiter.init])

/-! ## C5 — report_success recovery -/

/-- Case characterization of `report_success`: either the effective rate
is unchanged (and the counter just incremented), or the flood mark was
set, the incremented counter reached 50, the (nonzero) last flood lay
more than 60 seconds back, and the rate became
`min (rate · 1.1) baseline` with the counter reset. -/
theorem report_success_proj (s : AdaptiveRateLimiter) (now : ℚ) :
    ((AdaptiveRateLimiter.report_success s now).current_rate =
        s.current_rate ∧
      (AdaptiveRateLimiter.report_success s now).success_count =
        s.success_count + 1) ∨
    (s.flood_detected = true ∧ 50 ≤ s.success_count + 1 ∧
      (∃ t, s.last_flood_time = some t ∧ t ≠ 0 ∧ 60 < now - t) ∧
      (AdaptiveRateLimiter.report_success s now).current_rate =
        min (s.current_rate * 1.1) s.base_global_rate ∧
      (AdaptiveRateLimiter.report_success s now).success_count = 0) := by
  simp only [AdaptiveRateLimiter.report_success]
  split
  · next hfl =>
      split
      · next t heq =>
          split
          · next hc =>
              right
              refine ⟨hfl.1, hfl.2, ⟨t, heq, hc.1, hc.2⟩, ?_, ?_⟩
              · split <;> rfl
              · split <;> rfl
          · next => left; exact ⟨rfl, rfl⟩
      · next => left; exact ⟨rfl, rfl⟩
  · next => left; exact ⟨rfl, rfl⟩

/-- `report_success` never changes the configured baseline. -/
theorem report_success_base (s : AdaptiveRateLimiter) (now : ℚ) :
    (AdaptiveRateLimiter.report_success s now).base_global_rate =
      s.base_global_rate := by
  simp only [AdaptiveRateLimiter.report_success]
  split
  · split
    · split
      · split <;> rfl
      · rfl
    · rfl
  · rfl

/-- One `report_success` step is monotone and stays at or below the
baseline, for a state in the normal-regime window `0 ≤ rate ≤ baseline`. -/
theorem report_success_mono (s : AdaptiveRateLimiter) (now : ℚ)
    (h0 : 0 ≤ s.current_rate)
    (h1 : s.current_rate ≤ s.base_global_rate) :
    s.current_rate ≤ (AdaptiveRateLimiter.report_success s now).current_rate ∧
    (AdaptiveRateLimiter.report_success s now).current_rate ≤
      s.base_global_rate := by
  rcases report_success_proj s now with ⟨hr, _⟩ | ⟨_, _, _, hr, _⟩
  · rw [hr]
    exact ⟨le_refl _, h1⟩
  · rw [hr]
    constructor
    · refine le_min ?_ h1
      rw [show (1.1:ℚ) = 11 / 10 by norm_num]
      linarith
    · exact min_le_right _ _

/-- Iterated `report_success` keeps the rate weakly increasing, below the
(unchanged) baseline. -/
theorem applySucc_bounds (ts : List ℚ) : ∀ s : AdaptiveRateLimiter,
    0 ≤ s.current_rate → s.current_rate ≤ s.base_global_rate →
    s.current_rate ≤ (applyCalls s (ts.map RLCall.succ)).current_rate ∧
    (applyCalls s (ts.map RLCall.succ)).current_rate ≤
      s.base_global_rate ∧
    (applyCalls s (ts.map RLCall.succ)).base_global_rate =
      s.base_global_rate := by
  induction ts with
  | nil => exact fun s _ h1 => ⟨le_refl _, h1, rfl⟩
  | cons t rest ih =>
      intro s h0 h1
      have hm := report_success_mono s t h0 h1
      have hb := report_success_base s t
      have htail :=
        ih (AdaptiveRateLimiter.report_success s t) (le_trans h0 hm.1)
          (by rw [hb]; exact hm.2)
      simp only [List.map, applyCalls]
      refine ⟨le_trans hm.1 htail.1, ?_, ?_⟩
      · rw [← hb]
        exact htail.2.1
      · rw [htail.2.2, hb]

/-- C5: in the normal regime (`0 ≤ rate ≤ baseline`), `report_success`
raises the effective rate only when more than 60 seconds have elapsed
since the last flood signal and the success counter has reached 50, and
then it becomes `min (rate·1.1) baseline` with the counter reset to 0;
every sequence of `report_success` calls is monotone in the rate and
never exceeds the configured baseline. -/
theorem report_success_spec (s : AdaptiveRateLimiter) (now : ℚ)
    (h0 : 0 ≤ s.current_rate)
    (h1 : s.current_rate ≤ s.base_global_rate) :
    s.current_rate ≤ (AdaptiveRateLimiter.report_success s now).current_rate ∧
    (AdaptiveRateLimiter.report_success s now).current_rate ≤
      s.base_global_rate ∧
    ((AdaptiveRateLimiter.report_success s now).current_rate ≠
        s.current_rate →
      (∃ t, s.last_flood_time = some t ∧ 60 < now - t) ∧
      50 ≤ s.success_count + 1 ∧
      (AdaptiveRateLimiter.report_success s now).success_count = 0 ∧
      (AdaptiveRateLimiter.report_success s now).current_rate =
        min (s.current_rate * 1.1) s.base_global_rate) ∧
    (∀ ts : List ℚ,
      s.current_rate ≤ (applyCalls s (ts.map RLCall.succ)).current_rate ∧
      (applyCalls s (ts.map RLCall.succ)).current_rate ≤
        s.base_global_rate) := by
  have hm := report_success_mono s now h0 h1
  refine ⟨hm.1, hm.2, ?_, ?_⟩
  · intro hne
    rcases report_success_proj s now with ⟨hr, _⟩ |
      ⟨_, hcount, ⟨t, heq, _, hgt⟩, hr, hzero⟩
    · exact absurd hr hne
    · exact ⟨⟨t, heq, hgt⟩, hcount, hzero, hr⟩
  · intro ts
    have hb := applySucc_bounds ts s h0 h1
    exact ⟨hb.1, hb.2.1⟩

/-- C5 witness: a recovering limiter (rate 20, flood at instant 5, 49
prior successes) at instant 100 raises its rate to 22 = 20·1.1 and
resets the counter. -/
theorem report_success_spec_witness :
    rlRecovering.current_rate ≤
      (AdaptiveRateLimiter.report_success rlRecovering 100).current_rate ∧
    (AdaptiveRateLimiter.report_success rlRecovering 100).current_rate ≤
      rlRecovering.base_global_rate ∧
    ((AdaptiveRateLimiter.report_success rlRecovering 100).current_rate ≠
        rlRecovering.current_rate →
      (∃ t, rlRecovering.last_flood_time = some t ∧ 60 < 100 - t) ∧
      50 ≤ rlRecovering.success_count + 1 ∧
      (AdaptiveRateLimiter.report_success rlRecovering 100).success_count =
        0 ∧
      (AdaptiveRateLimiter.report_success rlRecovering 100).current_rate =
        min (rlRecovering.current_rate * 1.1)
          rlRecovering.base_global_rate) :=
  ⟨(report_success_spec rlRecovering 100
      (by norm_num [rlRecovering, AdaptiveRateLimiter.init])
      (by norm_num [rlRecovering, AdaptiveRateLimiter.init])).1,
   (report_success_spec rlRecovering 100
      (by norm_num [rlRecovering, AdaptiveRateLimiter.init])
      (by norm_num [rlRecovering, AdaptiveRateLimiter.init])).2.1,
   (report_success_spec rlRecovering 100
      (by norm_num [rlRecovering, AdaptiveRateLimiter.init])
      (by norm_num [rlRecovering, AdaptiveRateLimiter.init])).2.2.1⟩

/-! ## C10 — the reachable rate window -/

/-- `report_flood_control` as an equation on the rate. -/
theorem report_flood_control_rate (s : AdaptiveRateLimiter) (now : ℚ) :
    (AdaptiveRateLimiter.report_flood_control s now).current_rate =
      max (s.current_rate * 0.7) 10 := rfl

/-- Any sequence of flood/success calls keeps the effective rate inside
`[min baseline 10, max baseline 10]` and never changes the baseline. -/
theorem applyCalls_window (calls : List RLCall) :
    ∀ s : AdaptiveRateLimiter, 0 ≤ s.base_global_rate →
    min s.base_global_rate 10 ≤ s.current_rate →
    s.current_rate ≤ max s.base_global_rate 10 →
    (applyCalls s calls).base_global_rate = s.base_global_rate ∧
    min s.base_global_rate 10 ≤ (applyCalls s calls).current_rate ∧
    (applyCalls s calls).current_rate ≤ max s.base_global_rate 10 := by
  induction calls with
  | nil => exact fun s _ h1 h2 => ⟨rfl, h1, h2⟩
  | cons c rest ih =>
      intro s hb h1 h2
      have hmin0 : (0:ℚ) ≤ min s.base_global_rate 10 :=
        le_min hb (by norm_num)
      have hr0 : (0:ℚ) ≤ s.current_rate := le_trans hmin0 h1
      cases c with
      | flood t =>
          have hstep := ih (AdaptiveRateLimiter.report_flood_control s t)
            hb ?_ ?_
          · simpa only [applyCalls] using hstep
          · rw [report_flood_control_rate]
            exact le_trans (min_le_right _ _) (le_max_right _ _)
          · rw [report_flood_control_rate]
            apply max_le _ (le_max_right _ _)
            have : s.current_rate * 0.7 ≤ s.current_rate := by
              rw [show (0.7:ℚ) = 7 / 10 by norm_num]
              linarith
            exact le_trans this h2
      | succ t =>
          have hbase := report_success_base s t
          have hrate : min s.base_global_rate 10 ≤
              (AdaptiveRateLimiter.report_success s t).current_rate ∧
              (AdaptiveRateLimiter.report_success s t).current_rate ≤
                max s.base_global_rate 10 := by
            rcases report_success_proj s t with ⟨hr, _⟩ | ⟨_, _, _, hr, _⟩
            · rw [hr]
              exact ⟨h1, h2⟩
            · rw [hr]
              constructor
              · refine le_min ?_ (min_le_left _ _)
                have : s.current_rate ≤ s.current_rate * 1.1 := by
                  rw [show (1.1:ℚ) = 11 / 10 by norm_num]
                  linarith
                exact le_trans h1 this
              · exact le_trans (min_le_right _ _) (le_max_left _ _)
          have hstep := ih (AdaptiveRateLimiter.report_success s t)
            (by rw [hbase]; exact hb)
            (by rw [hbase]; exact hrate.1)
            (by rw [hbase]; exact hrate.2)
          simp only [applyCalls]
          rw [hstep.1, hbase]
          exact ⟨rfl, by rw [← hbase]; exact hstep.2.1,
            by rw [← hbase]; exact hstep.2.2⟩

/-- C10: from a freshly configured limiter with nonnegative base global
rate, every finite sequence of `report_flood_control`/`report_success`
calls keeps the effective rate within `[min base 10, max base 10]`; in
particular, when the configured base is below the flood floor of 10, a
single flood signal raises the effective rate to exactly 10, strictly
above the configured baseline. -/
theorem adaptive_rate_window (global_rate per_chat_rate burst_allowance
    t0 : ℚ) (hg : 0 ≤ global_rate) (calls : List RLCall) :
    (min global_rate 10 ≤
      (applyCalls (AdaptiveRateLimiter.init global_rate per_chat_rate
          burst_allowance t0) calls).current_rate ∧
      (applyCalls (AdaptiveRateLimiter.init global_rate per_chat_rate
          burst_allowance t0) calls).current_rate ≤ max global_rate 10) ∧
    (global_rate < 10 → ∀ tf : ℚ,
      (AdaptiveRateLimiter.report_flood_control
        (AdaptiveRateLimiter.init global_rate per_chat_rate
          burst_allowance t0) tf).current_rate = 10 ∧
      global_rate <
        (AdaptiveRateLimiter.report_flood_control
          (AdaptiveRateLimiter.init global_rate per_chat_rate
            burst_allowance t0) tf).current_rate) := by
  constructor
  · have h := applyCalls_window calls
      (AdaptiveRateLimiter.init global_rate per_chat_rate burst_allowance
        t0) hg (min_le_left _ _) (le_max_left _ _)
    exact ⟨h.2.1, h.2.2⟩
  · intro hlt tf
    have heq : (AdaptiveRateLimiter.report_flood_control
        (AdaptiveRateLimiter.init global_rate per_chat_rate
          burst_allowance t0) tf).current_rate = 10 := by
      rw [report_flood_control_rate]
      apply max_eq_right
      show (AdaptiveRateLimiter.init global_rate per_chat_rate
        burst_allowance t0).current_rate * 0.7 ≤ 10
      rw [show (0.7:ℚ) = 7 / 10 by norm_num]
      show global_rate * (7 / 10) ≤ 10
      linarith
    exact ⟨heq, by rw [heq]; exact hlt⟩

/-- C10 witness: with a configured base global rate of 4 (below the
floor), one flood signal sets the effective rate to 10 > 4. -/
theorem adaptive_rate_window_witness :
    (AdaptiveRateLimiter.report_flood_control
      (AdaptiveRateLimiter.init 4 18 50 0) 3).current_rate = 10 ∧
    (4:ℚ) <
      (AdaptiveRateLimiter.report_flood_control
        (AdaptiveRateLimiter.init 4 18 50 0) 3).current_rate :=
  (adaptive_rate_window 4 18 50 0 (by norm_num) []).2 (by norm_num) 3

/-! ## C3 / C8 — the failure path of send_post_to_channel -/

/-- `should_skip` only ever touches the skip list. -/
theorem should_skip_frame (s : SmartRetrySystem) (ch : String) (now : ℚ) :
    ((SmartRetrySystem.should_skip s ch now).2).failure_history =
      s.failure_history ∧
    ((SmartRetrySystem.should_skip s ch now).2).consecutive_failures =
      s.consecutive_failures ∧
    ((SmartRetrySystem.should_skip s ch now).2).alert_threshold =
      s.alert_threshold := by
  cases halo : alookup s.skip_list ch with
  | none => simp [SmartRetrySystem.should_skip, halo]
  | some t =>
      simp only [SmartRetrySystem.should_skip, halo]
      split <;> exact ⟨rfl, rfl, rfl⟩

/-- `record_failure` appends exactly one classified record to the
channel's failure history. -/
theorem record_failure_history (s : SmartRetrySystem) (ch msg : String)
    (pid : Option Nat) (now : ℚ) :
    alookup (SmartRetrySystem.record_failure s ch msg pid now).failure_history
        ch =
      some ((alookup s.failure_history ch).getD [] ++
        [{ etype := SmartRetrySystem.classify_error msg, msg := msg,
           post_id := pid, time := now }]) := by
  simp [SmartRetrySystem.record_failure, alookup_aset_self]

/-- C3 counterexample: the platform error `retry after 30` is classified
RateLimited, yet the failure path of `send_post_to_channel` does not
report a flood signal for it (no flood event is emitted), so the
claimed "iff" fails. -/
theorem send_flood_iff_cx :
    ¬ (SmartRetrySystem.classify_error "retry after 30" =
          ErrorKind.rate_limit →
        Event.floodEv ∈
          (ParallelSender.send_post_to_channel envRetryAfter false psInit 1
            "c").2.2) := by
  decide

/-- C3 (amended): on a caught platform error the sender reports a flood
signal iff the lowercased error text contains `flood` or
`too many requests` — a condition that is neither implied by nor implies
the RateLimited classification (which also matches `retry after` and is
preempted by Permanent phrases) — and `record_failure` is always called:
the channel's failure history grows by exactly the classified record of
this error. -/
theorem send_flood_iff_spec (env : Env) (retryPhase : Bool)
    (s : ParallelSender) (pid : Nat) (ch msg : String)
    (hsk : (SmartRetrySystem.should_skip s.retry_system ch
      (env.tau s.step)).1 = false)
    (hp : env.platform pid ch = some msg) :
    (Event.floodEv ∈
        (ParallelSender.send_post_to_channel env retryPhase s pid ch).2.2 ↔
      (strContains msg "flood" ||
        strContains msg "too many requests") = true) ∧
    alookup ((ParallelSender.send_post_to_channel env retryPhase s pid
          ch).2.1.retry_system.failure_history) ch =
      some ((alookup s.retry_system.failure_history ch).getD [] ++
        [{ etype := SmartRetrySystem.classify_error msg, msg := msg,
           post_id := some pid, time := env.tau s.step }]) := by
  rcases hq : SmartRetrySystem.should_skip s.retry_system ch
    (env.tau s.step) with ⟨sk, rs1⟩
  rw [hq] at hsk
  simp only at hsk
  subst hsk
  have hfr := should_skip_frame s.retry_system ch (env.tau s.step)
  rw [hq] at hfr
  simp only [ParallelSender.send_post_to_channel, hq, hp]
  simp only [Bool.false_eq_true, if_false]
  constructor
  · cases hfl : (strContains msg "flood" ||
        strContains msg "too many requests") with
    | true => simp [hfl]
    | false =>
        simp only [hfl, Bool.false_eq_true, if_false, List.nil_append]
        simp only [List.mem_append, List.mem_singleton]
        constructor
        · rintro (h | h)
          · exact absurd h (by simp)
          · exfalso
            split at h <;> simp_all
        · intro h
          exact absurd h (by simp)
  · rw [record_failure_history rs1 ch msg (some pid) (env.tau s.step),
      hfr.1]

/-- C3 witness: a genuine flood-control error on a fresh sender reports
the flood signal (the iff instantiated at a concrete flood error). -/
theorem send_flood_iff_spec_witness :
    Event.floodEv ∈
        (ParallelSender.send_post_to_channel envFlood false psInit 1
          "c").2.2 ↔
      (strContains "flood control exceeded" "flood" ||
        strContains "flood control exceeded" "too many requests") = true :=
  (send_flood_iff_spec envFlood false psInit 1 "c" "flood control exceeded"
    (by decide) rfl).1

/-- C8 counterexample: on a channel with two prior failures a third
permanent failure emits the actionable-options notification at
consecutive count 3 while `needs_alert` (threshold 5) is still false, so
the actions notification does not coincide with `NeedsAlert` newly
becoming true. -/
theorem send_notify_threshold_cx :
    ¬ (Event.notifyEv "c" (Notify.actions 3) ∈
          (ParallelSender.send_post_to_channel envForbidden false
            psTwoFailures 7 "c").2.2 →
        SmartRetrySystem.needs_alert
          (ParallelSender.send_post_to_channel envForbidden false
            psTwoFailures 7 "c").2.1.retry_system "c" = true) := by
  decide

/-- C8 (amended): on a caught platform error the escalation path keys on
the just-updated consecutive-failure count `fc` of the channel: the
first/second notifications fire exactly when `fc = 1` / `fc = 2` (so
they can re-fire when a later transient failure leaves the count at the
same value), and the actionable-options notification fires exactly when
`fc ≥ 3` — by default before `NeedsAlert` (threshold 5) becomes true —
and the channel has no entry in `admin_notified`; it then records the
channel in `admin_notified`, so it fires at most once per failure
episode. -/
theorem send_notify_spec (env : Env) (retryPhase : Bool)
    (s : ParallelSender) (pid : Nat) (ch msg : String)
    (hsk : (SmartRetrySystem.should_skip s.retry_system ch
      (env.tau s.step)).1 = false)
    (hp : env.platform pid ch = some msg) :
    (∀ n : Nat, Event.notifyEv ch (Notify.actions n) ∈
        (ParallelSender.send_post_to_channel env retryPhase s pid
          ch).2.2 ↔
      (n = (alookup (ParallelSender.send_post_to_channel env retryPhase s
          pid ch).2.1.retry_system.consecutive_failures ch).getD 0 ∧
        3 ≤ (alookup (ParallelSender.send_post_to_channel env retryPhase s
          pid ch).2.1.retry_system.consecutive_failures ch).getD 0 ∧
        alookup s.admin_notified ch = none)) ∧
    (Event.notifyEv ch Notify.first ∈
        (ParallelSender.send_post_to_channel env retryPhase s pid
          ch).2.2 ↔
      (alookup (ParallelSender.send_post_to_channel env retryPhase s pid
        ch).2.1.retry_system.consecutive_failures ch).getD 0 = 1) ∧
    (Event.notifyEv ch Notify.second ∈
        (ParallelSender.send_post_to_channel env retryPhase s pid
          ch).2.2 ↔
      (alookup (ParallelSender.send_post_to_channel env retryPhase s pid
        ch).2.1.retry_system.consecutive_failures ch).getD 0 = 2) ∧
    ((∃ n : Nat, Event.notifyEv ch (Notify.actions n) ∈
        (ParallelSender.send_post_to_channel env retryPhase s pid
          ch).2.2) →
      (alookup (ParallelSender.send_post_to_channel env retryPhase s pid
          ch).2.1.admin_notified ch).isSome = true) ∧
    (alookup s.admin_notified ch ≠ none → ∀ n : Nat,
      Event.notifyEv ch (Notify.actions n) ∉
        (ParallelSender.send_post_to_channel env retryPhase s pid
          ch).2.2) := by
  rcases hq : SmartRetrySystem.should_skip s.retry_system ch
    (env.tau s.step) with ⟨sk, rs1⟩
  rw [hq] at hsk
  simp only at hsk
  subst hsk
  simp only [ParallelSender.send_post_to_channel, hq, hp]
  simp only [Bool.false_eq_true, if_false]
  by_cases h1 : (alookup (SmartRetrySystem.record_failure rs1 ch msg
      (some pid) (env.tau s.step)).consecutive_failures ch).getD 0 = 1
  · simp [h1]
  · by_cases h2 : (alookup (SmartRetrySystem.record_failure rs1 ch msg
        (some pid) (env.tau s.step)).consecutive_failures ch).getD 0 = 2
    · simp [h1, h2]
    · by_cases h3 : 3 ≤ (alookup (SmartRetrySystem.record_failure rs1 ch
          msg (some pid) (env.tau s.step)).consecutive_failures ch).getD 0
      · by_cases hadm : alookup s.admin_notified ch = none
        · simp [h1, h2, h3, hadm, alookup_aset_self]
        · simp [h1, h2, h3, hadm]
      · have h0 : ¬ (3 ≤ (alookup (SmartRetrySystem.record_failure rs1 ch
            msg (some pid) (env.tau s.step)).consecutive_failures
              ch).getD 0 ∧
            alookup s.admin_notified ch = none) := fun hc => h3 hc.1
        simp [h1, h2, h3, h0]

/-- C8 witness: the third consecutive failure (count 3 < threshold 5)
emits the actionable-options notification exactly under the code's
condition, instantiated on a concrete channel with two prior failures. -/
theorem send_notify_spec_witness :
    Event.notifyEv "c" (Notify.actions 3) ∈
        (ParallelSender.send_post_to_channel envForbidden false
          psTwoFailures 7 "c").2.2 ↔
      (3 = (alookup (ParallelSender.send_post_to_channel envForbidden
          false psTwoFailures 7 "c").2.1.retry_system.consecutive_failures
          "c").getD 0 ∧
        3 ≤ (alookup (ParallelSender.send_post_to_channel envForbidden
          false psTwoFailures 7 "c").2.1.retry_system.consecutive_failures
          "c").getD 0 ∧
        alookup psTwoFailures.admin_notified "c" = none) :=
  (send_notify_spec envForbidden false psTwoFailures 7 "c" "forbidden"
    (by decide) rfl).1 3

/-! ## Trace-ordering infrastructure for C6 / C7 -/

/-- Splitting an appended list at a distinguished element: the element
lies in the left part or in the right part. -/
theorem append_split {α : Type} {A B l₁ l₂ : List α} {x : α}
    (h : A ++ B = l₁ ++ x :: l₂) :
    (∃ m, A = l₁ ++ x :: m ∧ l₂ = m ++ B) ∨
    (∃ m, l₁ = A ++ m ∧ B = m ++ x :: l₂) := by
  induction A generalizing l₁ with
  | nil =>
      right
      exact ⟨l₁, rfl, by simpa using h⟩
  | cons a A ih =>
      cases l₁ with
      | nil =>
          rw [List.cons_append, List.nil_append] at h
          injection h with h1 h2
          subst h1
          exact Or.inl ⟨A, rfl, h2.symm⟩
      | cons c l₁ =>
          rw [List.cons_append, List.cons_append] at h
          injection h with h1 h2
          subst h1
          rcases ih h2 with ⟨m, hm1, hm2⟩ | ⟨m, hm1, hm2⟩
          · exact Or.inl ⟨m, by rw [List.cons_append, hm1], hm2⟩
          · exact Or.inr ⟨m, by rw [List.cons_append, hm1], hm2⟩

/-- `append_split` when the element cannot occur in the left part. -/
theorem append_split_right {α : Type} {A B l₁ l₂ : List α} {x : α}
    (h : A ++ B = l₁ ++ x :: l₂) (hx : x ∉ A) :
    ∃ m, l₁ = A ++ m ∧ B = m ++ x :: l₂ := by
  rcases append_split h with ⟨m, hm1, _⟩ | hr
  · exact absurd (hm1 ▸ List.mem_append_right l₁
      (List.mem_cons_self x m)) hx
  · exact hr

/-- `append_split` when the element cannot occur in the right part. -/
theorem append_split_left {α : Type} {A B l₁ l₂ : List α} {x : α}
    (h : A ++ B = l₁ ++ x :: l₂) (hx : x ∉ B) :
    ∃ m, A = l₁ ++ x :: m ∧ l₂ = m ++ B := by
  rcases append_split h with hl | ⟨m, _, hm2⟩
  · exact hl
  · exact absurd (hm2 ▸ List.mem_append_right m
      (List.mem_cons_self x l₂)) hx

/-- Members of the conditional flood-event list are flood events. -/
theorem mem_floodList {c : Prop} [Decidable c] {e : Event}
    (h : e ∈ (if c then [Event.floodEv] else [])) : e = Event.floodEv := by
  split at h <;> simp_all

/-- Members of the optional notification list are notification events. -/
theorem mem_notifyList {ch : String} {o : Option Notify} {e : Event}
    (h : e ∈ (match o with
      | some n => [Event.notifyEv ch n]
      | none => ([] : List Event))) :
    ∃ n, e = Event.notifyEv ch n := by
  cases o with
  | none => simp at h
  | some n =>
      simp at h
      exact ⟨n, h⟩

/-- The events of one `send_post_to_channel` call: no persistence, no
stop-flag poll, and every send event carries this call's phase and post
id. -/
theorem send_post_events (env : Env) (r : Bool) (s : ParallelSender)
    (pid : Nat) (ch : String) :
    (∀ pid2 n, Event.persist pid2 n ∉
      (ParallelSender.send_post_to_channel env r s pid ch).2.2) ∧
    (∀ b, Event.poll b ∉
      (ParallelSender.send_post_to_channel env r s pid ch).2.2) ∧
    (∀ r2 pid2 ch2 ok, Event.sendEv r2 pid2 ch2 ok ∈
        (ParallelSender.send_post_to_channel env r s pid ch).2.2 →
      r2 = r ∧ pid2 = pid) := by
  rcases hq : SmartRetrySystem.should_skip s.retry_system ch
    (env.tau s.step) with ⟨sk, rs1⟩
  simp only [ParallelSender.send_post_to_channel, hq]
  cases sk with
  | true =>
      refine ⟨?_, ?_, ?_⟩ <;> intros <;> simp_all
  | false =>
      cases hp : env.platform pid ch with
      | none =>
          refine ⟨?_, ?_, ?_⟩ <;> intros <;> simp_all
      | some msg =>
          simp only [Bool.false_eq_true, if_false]
          refine ⟨?_, ?_, ?_⟩
          · intro pid2 n hmem
            rcases List.mem_append.1 hmem with h | h
            · rcases List.mem_append.1 h with h2 | h2
              · simp at h2
              · exact absurd (mem_floodList h2) (by simp)
            · obtain ⟨n2, hn⟩ := mem_notifyList h
              simp at hn
          · intro b hmem
            rcases List.mem_append.1 hmem with h | h
            · rcases List.mem_append.1 h with h2 | h2
              · simp at h2
              · exact absurd (mem_floodList h2) (by simp)
            · obtain ⟨n2, hn⟩ := mem_notifyList h
              simp at hn
          · intro r2 pid2 ch2 ok hmem
            rcases List.mem_append.1 hmem with h | h
            · rcases List.mem_append.1 h with h2 | h2
              · simp only [List.mem_singleton, Event.sendEv.injEq] at h2
                exact ⟨h2.1, h2.2.1⟩
              · exact absurd (mem_floodList h2) (by simp)
            · obtain ⟨n2, hn⟩ := mem_notifyList h
              simp at hn

/-- The events of one fan-out over all channels: no persistence, no
poll, and every send event is a main-phase send of this post. -/
theorem sendToChannels_events (env : Env) (pid : Nat)
    (chs : List String) : ∀ s : ParallelSender,
    (∀ pid2 n, Event.persist pid2 n ∉
      (sendToChannels env s pid chs).2.1) ∧
    (∀ b, Event.poll b ∉ (sendToChannels env s pid chs).2.1) ∧
    (∀ r2 pid2 ch2 ok, Event.sendEv r2 pid2 ch2 ok ∈
        (sendToChannels env s pid chs).2.1 →
      r2 = false ∧ pid2 = pid) := by
  induction chs with
  | nil =>
      intro s
      refine ⟨?_, ?_, ?_⟩ <;> intros <;> simp_all [sendToChannels]
  | cons ch rest ih =>
      intro s
      have hs := send_post_events env false s pid ch
      have ht := ih (ParallelSender.send_post_to_channel env false s pid
        ch).2.1
      simp only [sendToChannels]
      refine ⟨?_, ?_, ?_⟩
      · intro pid2 n hmem
        rcases List.mem_append.1 hmem with h | h
        · exact hs.1 pid2 n h
        · exact ht.1 pid2 n h
      · intro b hmem
        rcases List.mem_append.1 hmem with h | h
        · exact hs.2.1 b h
        · exact ht.2.1 b h
      · intro r2 pid2 ch2 ok hmem
        rcases List.mem_append.1 hmem with h | h
        · exact hs.2.2 r2 pid2 ch2 ok h
        · exact ht.2.2 r2 pid2 ch2 ok h

/-- The events of the retry pass: no persistence, no poll, and no
main-phase send event at all. -/
theorem retryLoop_events (env : Env) (posts : List Post)
    (items : List (Nat × String)) : ∀ s : ParallelSender,
    (∀ pid2 n, Event.persist pid2 n ∉ (retryLoop env posts s items).2) ∧
    (∀ b, Event.poll b ∉ (retryLoop env posts s items).2) ∧
    (∀ pid2 ch2 ok, Event.sendEv false pid2 ch2 ok ∉
      (retryLoop env posts s items).2) := by
  induction items with
  | nil =>
      intro s
      refine ⟨?_, ?_, ?_⟩ <;> intros <;> simp_all [retryLoop]
  | cons item rest ih =>
      intro s
      obtain ⟨pid, ch⟩ := item
      simp only [retryLoop]
      cases hfind : posts.find? (fun p => p.id == pid) with
      | none => exact ih s
      | some post =>
          have hs := send_post_events env true s pid ch
          have ht := ih (ParallelSender.send_post_to_channel env true s
            pid ch).2.1
          refine ⟨?_, ?_, ?_⟩
          · intro pid2 n hmem
            rcases List.mem_append.1 hmem with h | h
            · exact hs.1 pid2 n h
            · exact ht.1 pid2 n h
          · intro b hmem
            rcases List.mem_append.1 hmem with h | h
            · exact hs.2.1 b h
            · exact ht.2.1 b h
          · intro pid2 ch2 ok hmem
            rcases List.mem_append.1 hmem with h | h
            · exact absurd (hs.2.2 false pid2 ch2 ok h).1 (by simp)
            · exact ht.2.2 pid2 ch2 ok h

/-- The main loop on a stopped flag: one true poll, nothing else. -/
theorem mainLoop_cons_stop (env : Env) (chs : List String)
    (s : ParallelSender) (post : Post) (rest : List Post)
    (hb : env.flag s.polls = true) :
    mainLoop env chs s (post :: rest) =
      ({ s with polls := s.polls + 1 }, [Event.poll true], []) := by
  simp [mainLoop, pollFlag, hb]

/-- The main loop on a clear flag: the false poll, then the fan-out of
the head post, its persistence event, then the rest of the loop (whose
final state is the loop's final state). -/
theorem mainLoop_cons_go (env : Env) (chs : List String)
    (s : ParallelSender) (post : Post) (rest : List Post)
    (hb : env.flag s.polls = false) :
    (mainLoop env chs s (post :: rest)).2.1 =
      Event.poll false ::
        ((sendToChannels env { s with polls := s.polls + 1 } post.id
            chs).2.1 ++
          Event.persist post.id
              (((sendToChannels env { s with polls := s.polls + 1 }
                post.id chs).2.2.filter (fun b => b)).length) ::
            (mainLoop env chs
              (sendToChannels env { s with polls := s.polls + 1 } post.id
                chs).1 rest).2.1) ∧
    (mainLoop env chs s (post :: rest)).1 =
      (mainLoop env chs
        (sendToChannels env { s with polls := s.polls + 1 } post.id
          chs).1 rest).1 := by
  constructor
  · simp [mainLoop, pollFlag, hb, List.append_assoc]
  · simp [mainLoop, pollFlag, hb]

/-- Every send event of the main loop is a main-phase send of one of the
loop's posts, and every persistence event names one of the loop's
posts. -/
theorem mainLoop_sendIds (env : Env) (chs : List String) :
    ∀ (posts : List Post) (s : ParallelSender),
    (∀ r2 pid2 ch2 ok, Event.sendEv r2 pid2 ch2 ok ∈
        (mainLoop env chs s posts).2.1 →
      r2 = false ∧ pid2 ∈ posts.map Post.id) ∧
    (∀ pid2 n, Event.persist pid2 n ∈ (mainLoop env chs s posts).2.1 →
      pid2 ∈ posts.map Post.id) := by
  intro posts
  induction posts with
  | nil =>
      intro s
      refine ⟨?_, ?_⟩ <;> intros <;> simp_all [mainLoop]
  | cons post rest ih =>
      intro s
      cases hb : env.flag s.polls with
      | true =>
          rw [mainLoop_cons_stop env chs s post rest hb]
          refine ⟨?_, ?_⟩ <;> intros <;> simp_all
      | false =>
          rw [(mainLoop_cons_go env chs s post rest hb).1]
          have hstc := sendToChannels_events env post.id chs
            { s with polls := s.polls + 1 }
          have htail := ih (sendToChannels env
            { s with polls := s.polls + 1 } post.id chs).1
          refine ⟨?_, ?_⟩
          · intro r2 pid2 ch2 ok hmem
            rcases List.mem_cons.1 hmem with h | h
            · simp at h
            · rcases List.mem_append.1 h with h2 | h2
              · have := hstc.2.2 r2 pid2 ch2 ok h2
                exact ⟨this.1, by simp [this.2]⟩
              · rcases List.mem_cons.1 h2 with h3 | h3
                · simp at h3
                · have := htail.1 r2 pid2 ch2 ok h3
                  exact ⟨this.1, by simp [this.2]⟩
          · intro pid2 n hmem
            rcases List.mem_cons.1 hmem with h | h
            · simp at h
            · rcases List.mem_append.1 h with h2 | h2
              · exact absurd h2 (hstc.1 pid2 n)
              · rcases List.mem_cons.1 h2 with h3 | h3
                · simp only [Event.persist.injEq] at h3
                  simp [h3.1]
                · exact by simp [htail.2 pid2 n h3]

/-- Ordering inside the main loop: once the persistence event of a post
appears, no main-phase send of that post follows it, and no main-phase
send of a later post precedes it. -/
theorem mainLoop_order (env : Env) (chs : List String) :
    ∀ (ps₁ : List Post) (p : Post) (ps₂ : List Post) (s : ParallelSender),
    ((ps₁ ++ p :: ps₂).map Post.id).Nodup →
    ∀ (l₁ l₂ : List Event) (n : Nat),
    (mainLoop env chs s (ps₁ ++ p :: ps₂)).2.1 =
      l₁ ++ Event.persist p.id n :: l₂ →
    (∀ ch ok, Event.sendEv false p.id ch ok ∉ l₂) ∧
    (∀ q ∈ ps₂, ∀ ch ok, Event.sendEv false q.id ch ok ∉ l₁) := by
  intro ps₁
  induction ps₁ with
  | nil =>
      intro p ps₂ s hnd l₁ l₂ n htr
      rw [List.nil_append] at htr
      have hpid : p.id ∉ ps₂.map Post.id :=
        (List.nodup_cons.1 (by simpa using hnd)).1
      cases hb : env.flag s.polls with
      | true =>
          rw [mainLoop_cons_stop env chs s p ps₂ hb] at htr
          simp only at htr
          have hmem : Event.persist p.id n ∈ [Event.poll true] := by
            rw [htr]
            exact List.mem_append_right _ (List.mem_cons_self _ _)
          simp at hmem
      | false =>
          rw [(mainLoop_cons_go env chs s p ps₂ hb).1] at htr
          have hstc := sendToChannels_events env p.id chs
            { s with polls := s.polls + 1 }
          have hml := mainLoop_sendIds env chs ps₂
            (sendToChannels env { s with polls := s.polls + 1 } p.id
              chs).1
          cases l₁ with
          | nil =>
              rw [List.nil_append] at htr
              injection htr with h1 h2
              simp at h1
          | cons e l₁' =>
              rw [List.cons_append] at htr
              injection htr with h1 h2
              obtain ⟨m, hm1, hm2⟩ := append_split_right h2
                (hstc.1 p.id n)
              cases m with
              | nil =>
                  rw [List.nil_append] at hm2
                  injection hm2 with hh1 hh2
                  refine ⟨?_, ?_⟩
                  · intro ch ok hmem
                    rw [← hh2] at hmem
                    have := (hml.1 false p.id ch ok hmem).2
                    exact hpid this
                  · intro q hq ch ok hmem
                    have hqid : q.id ∈ ps₂.map Post.id :=
                      List.mem_map_of_mem Post.id hq
                    have hqp : q.id ≠ p.id := fun heq => hpid (heq ▸ hqid)
                    rcases List.mem_cons.1 hmem with h3 | h3
                    · rw [← h1] at h3
                      simp at h3
                    · rw [hm1, List.append_nil] at h3
                      exact hqp (hstc.2.2 false q.id ch ok h3).2
              | cons e2 m' =>
                  injection hm2 with hh1 hh2
                  have hmem : Event.persist p.id n ∈
                      (mainLoop env chs
                        (sendToChannels env { s with polls := s.polls + 1 }
                          p.id chs).1 ps₂).2.1 := by
                    rw [hh2]
                    exact List.mem_append_right _ (List.mem_cons_self _ _)
                  exact absurd (hml.2 p.id n hmem) hpid
  | cons r ps₁' ih =>
      intro p ps₂ s hnd l₁ l₂ n htr
      rw [List.cons_append] at htr
      have hnd2 : ((ps₁' ++ p :: ps₂).map Post.id).Nodup :=
        (List.nodup_cons.1 (by simpa using hnd)).2
      have hrt : r.id ∉ (ps₁' ++ p :: ps₂).map Post.id :=
        (List.nodup_cons.1 (by simpa using hnd)).1
      have hrp : r.id ≠ p.id := by
        intro heq
        exact hrt (by simp [heq])
      cases hb : env.flag s.polls with
      | true =>
          rw [mainLoop_cons_stop env chs s r (ps₁' ++ p :: ps₂) hb] at htr
          simp only at htr
          have hmem : Event.persist p.id n ∈ [Event.poll true] := by
            rw [htr]
            exact List.mem_append_right _ (List.mem_cons_self _ _)
          simp at hmem
      | false =>
          rw [(mainLoop_cons_go env chs s r (ps₁' ++ p :: ps₂) hb).1]
            at htr
          have hstc := sendToChannels_events env r.id chs
            { s with polls := s.polls + 1 }
          cases l₁ with
          | nil =>
              rw [List.nil_append] at htr
              injection htr with h1 h2
              simp at h1
          | cons e l₁' =>
              rw [List.cons_append] at htr
              injection htr with h1 h2
              obtain ⟨m, hm1, hm2⟩ := append_split_right h2
                (hstc.1 p.id n)
              cases m with
              | nil =>
                  rw [List.nil_append] at hm2
                  injection hm2 with hh1 hh2
                  injection hh1 with hid hcnt
                  exact absurd hid hrp
              | cons e2 m' =>
                  injection hm2 with hh1 hh2
                  obtain ⟨c1, c2⟩ := ih p ps₂
                    (sendToChannels env { s with polls := s.polls + 1 }
                      r.id chs).1 hnd2 m' l₂ n hh2
                  refine ⟨c1, ?_⟩
                  intro q hq ch ok hmem
                  have hqid : q.id ∈ (ps₁' ++ p :: ps₂).map Post.id := by
                    simp only [List.map_append, List.map_cons]
                    exact List.mem_append_right _
                      (List.mem_cons_of_mem _ (List.mem_map_of_mem Post.id hq))
                  have hqr : q.id ≠ r.id := fun heq =>
                    hrt (heq ▸ hqid)
                  rcases List.mem_cons.1 hmem with h3 | h3
                  · rw [← h1] at h3
                    simp at h3
                  · rw [hm1] at h3
                    rcases List.mem_append.1 h3 with h4 | h4
                    · exact hqr (hstc.2.2 false q.id ch ok h4).2
                    · rcases List.mem_cons.1 h4 with h5 | h5
                      · rw [← hh1] at h5
                        simp at h5
                      · exact c2 q hq ch ok h5

/-- `send_batch_to_all_channels` with the stop flag already set: one
true poll and an immediate return. -/
theorem send_batch_stopped_eq (env : Env) (s : ParallelSender)
    (posts : List Post) (chs : List String)
    (hb : env.flag s.polls = true) :
    ParallelSender.send_batch_to_all_channels env s posts chs =
      ({ s with polls := s.polls + 1 }, [Event.poll true]) := by
  simp [ParallelSender.send_batch_to_all_channels, pollFlag, hb]

/-- `send_batch_to_all_channels` with a clear initial flag: the false
poll, the main loop's trace, then (when there are failed sends) one
more poll and — only if it is clear — the retry pass. -/
theorem send_batch_go_eq (env : Env) (s : ParallelSender)
    (posts : List Post) (chs : List String)
    (hb : env.flag s.polls = false) :
    (ParallelSender.send_batch_to_all_channels env s posts chs).2 =
      Event.poll false ::
        ((mainLoop env chs { s with polls := s.polls + 1 } posts).2.1 ++
          (if (mainLoop env chs { s with polls := s.polls + 1 }
              posts).2.2.isEmpty then []
           else if env.flag (mainLoop env chs { s with polls := s.polls + 1 }
              posts).1.polls then [Event.poll true]
           else Event.poll false ::
             (retryLoop env posts
               { (mainLoop env chs { s with polls := s.polls + 1 }
                   posts).1 with
                 polls := (mainLoop env chs { s with polls := s.polls + 1 }
                   posts).1.polls + 1 }
               (mainLoop env chs { s with polls := s.polls + 1 }
                 posts).2.2).2)) := by
  simp only [ParallelSender.send_batch_to_all_channels, pollFlag, hb]
  by_cases h1 : (mainLoop env chs { s with polls := s.polls + 1 }
      posts).2.2.isEmpty
  · simp [h1]
  · cases h2 : env.flag (mainLoop env chs { s with polls := s.polls + 1 }
        posts).1.polls with
    | true => simp [h1, h2, List.append_assoc]
    | false => simp [h1, h2, List.append_assoc]

/-- C6: in every batch run over posts with distinct ids, the persistence
event of a post comes after every main-phase send of that post (none
follows it) and before every main-phase send of any later post of the
batch (none precedes it). -/
theorem send_batch_persist_order (env : Env) (s : ParallelSender)
    (posts : List Post) (chs : List String)
    (hnd : (posts.map Post.id).Nodup)
    (ps₁ : List Post) (p : Post) (ps₂ : List Post)
    (hsplit : posts = ps₁ ++ p :: ps₂)
    (l₁ l₂ : List Event) (n : Nat)
    (htr : (ParallelSender.send_batch_to_all_channels env s posts
      chs).2 = l₁ ++ Event.persist p.id n :: l₂) :
    (∀ ch ok, Event.sendEv false p.id ch ok ∉ l₂) ∧
    (∀ q ∈ ps₂, ∀ ch ok, Event.sendEv false q.id ch ok ∉ l₁) := by
  subst hsplit
  cases hb : env.flag s.polls with
  | true =>
      rw [send_batch_stopped_eq env s _ chs hb] at htr
      simp only at htr
      have hmem : Event.persist p.id n ∈ [Event.poll true] := by
        rw [htr]
        exact List.mem_append_right _ (List.mem_cons_self _ _)
      simp at hmem
  | false =>
      rw [send_batch_go_eq env s _ chs hb] at htr
      have hrest_p : ∀ pid2 n2, Event.persist pid2 n2 ∉
          (if (mainLoop env chs { s with polls := s.polls + 1 }
              (ps₁ ++ p :: ps₂)).2.2.isEmpty then []
           else if env.flag (mainLoop env chs { s with polls := s.polls + 1 }
              (ps₁ ++ p :: ps₂)).1.polls then [Event.poll true]
           else Event.poll false ::
             (retryLoop env (ps₁ ++ p :: ps₂)
               { (mainLoop env chs { s with polls := s.polls + 1 }
                   (ps₁ ++ p :: ps₂)).1 with
                 polls := (mainLoop env chs { s with polls := s.polls + 1 }
                   (ps₁ ++ p :: ps₂)).1.polls + 1 }
               (mainLoop env chs { s with polls := s.polls + 1 }
                 (ps₁ ++ p :: ps₂)).2.2).2) := by
        intro pid2 n2 hmem
        split at hmem
        · simp at hmem
        · split at hmem
          · simp at hmem
          · rcases List.mem_cons.1 hmem with h3 | h3
            · simp at h3
            · exact (retryLoop_events env (ps₁ ++ p :: ps₂) _ _).1
                pid2 n2 h3
      have hrest_s : ∀ pid2 ch ok, Event.sendEv false pid2 ch ok ∉
          (if (mainLoop env chs { s with polls := s.polls + 1 }
              (ps₁ ++ p :: ps₂)).2.2.isEmpty then []
           else if env.flag (mainLoop env chs { s with polls := s.polls + 1 }
              (ps₁ ++ p :: ps₂)).1.polls then [Event.poll true]
           else Event.poll false ::
             (retryLoop env (ps₁ ++ p :: ps₂)
               { (mainLoop env chs { s with polls := s.polls + 1 }
                   (ps₁ ++ p :: ps₂)).1 with
                 polls := (mainLoop env chs { s with polls := s.polls + 1 }
                   (ps₁ ++ p :: ps₂)).1.polls + 1 }
               (mainLoop env chs { s with polls := s.polls + 1 }
                 (ps₁ ++ p :: ps₂)).2.2).2) := by
        intro pid2 ch ok hmem
        split at hmem
        · simp at hmem
        · split at hmem
          · simp at hmem
          · rcases List.mem_cons.1 hmem with h3 | h3
            · simp at h3
            · exact (retryLoop_events env (ps₁ ++ p :: ps₂) _ _).2.2
                pid2 ch ok h3
      cases l₁ with
      | nil =>
          rw [List.nil_append] at htr
          injection htr with h1 h2
          simp at h1
      | cons e l₁' =>
          rw [List.cons_append] at htr
          injection htr with h1 h2
          obtain ⟨m2, hm1, hm2⟩ := append_split_left h2
            (hrest_p p.id n)
          obtain ⟨c1, c2⟩ := mainLoop_order env chs ps₁ p ps₂
            { s with polls := s.polls + 1 } hnd l₁' m2 n hm1
          refine ⟨?_, ?_⟩
          · intro ch ok hmem
            rw [hm2] at hmem
            rcases List.mem_append.1 hmem with h3 | h3
            · exact c1 ch ok h3
            · exact hrest_s p.id ch ok h3
          · intro q hq ch ok hmem
            rcases List.mem_cons.1 hmem with h3 | h3
            · rw [← h1] at h3
              simp at h3
            · exact c2 q hq ch ok h3

/-- C6 witness: a concrete two-post batch over one channel; the split at
post 1's persistence event has no main-phase send of post 1 after it and
no main-phase send of post 2 before it. -/
theorem send_batch_persist_order_witness :
    (∀ ch ok, Event.sendEv false 1 ch ok ∉
      [Event.poll false, Event.sendEv false 2 "a" true,
        Event.persist 2 1]) ∧
    (∀ q ∈ [({ id := 2 } : Post)], ∀ ch ok,
      Event.sendEv false q.id ch ok ∉
        [Event.poll false, Event.poll false,
          Event.sendEv false 1 "a" true]) :=
  send_batch_persist_order envOk psInit [{ id := 1 }, { id := 2 }] ["a"]
    (by decide) [] { id := 1 } [{ id := 2 }] rfl
    [Event.poll false, Event.poll false, Event.sendEv false 1 "a" true]
    [Event.poll false, Event.sendEv false 2 "a" true, Event.persist 2 1]
    1 (by decide)

/-- A true poll can only be the last event of the main loop's trace, and
then (for a monotone flag) the flag is still set at the loop's final
poll cursor. -/
theorem mainLoop_poll_true (env : Env) (chs : List String)
    (hmono : ∀ i j : Nat, i ≤ j → env.flag i = true → env.flag j = true) :
    ∀ (posts : List Post) (s : ParallelSender) (l₁ l₂ : List Event),
    (mainLoop env chs s posts).2.1 = l₁ ++ Event.poll true :: l₂ →
    l₂ = [] ∧ env.flag (mainLoop env chs s posts).1.polls = true := by
  intro posts
  induction posts with
  | nil =>
      intro s l₁ l₂ htr
      have hmem : Event.poll true ∈ ([] : List Event) := by
        rw [show ([] : List Event) =
          (mainLoop env chs s ([] : List Post)).2.1 from rfl, htr]
        exact List.mem_append_right _ (List.mem_cons_self _ _)
      simp at hmem
  | cons post rest ih =>
      intro s l₁ l₂ htr
      cases hb : env.flag s.polls with
      | true =>
          rw [mainLoop_cons_stop env chs s post rest hb] at htr ⊢
          simp only at htr ⊢
          cases l₁ with
          | nil =>
              rw [List.nil_append] at htr
              injection htr with h1 h2
              exact ⟨h2.symm, hmono s.polls (s.polls + 1)
                (Nat.le_succ _) hb⟩
          | cons e l₁' =>
              injection htr with h1 h2
              have hmem : Event.poll true ∈ ([] : List Event) := by
                rw [h2]
                exact List.mem_append_right _ (List.mem_cons_self _ _)
              simp at hmem
      | false =>
          rw [(mainLoop_cons_go env chs s post rest hb).1] at htr
          rw [(mainLoop_cons_go env chs s post rest hb).2]
          have hstc := sendToChannels_events env post.id chs
            { s with polls := s.polls + 1 }
          cases l₁ with
          | nil =>
              rw [List.nil_append] at htr
              injection htr with h1 h2
              simp at h1
          | cons e l₁' =>
              rw [List.cons_append] at htr
              injection htr with h1 h2
              obtain ⟨m, hm1, hm2⟩ := append_split_right h2
                (hstc.2.1 true)
              cases m with
              | nil =>
                  rw [List.nil_append] at hm2
                  injection hm2 with hh1 hh2
                  simp at hh1
              | cons e2 m' =>
                  injection hm2 with hh1 hh2
                  exact ih (sendToChannels env
                    { s with polls := s.polls + 1 } post.id chs).1
                    m' l₂ hh2

/-- C7 counterexample: the concrete one-post, two-channel batch in which
both sends fail transiently has two retry-pass sends with no stop-flag
poll between them — the claimed mid-retry-pass check does not exist. -/
theorem send_batch_retry_poll_cx :
    ¬ (∀ (l₁ l₂ l₃ : List Event) (pid : Nat) (ch : String) (ok : Bool)
        (pid2 : Nat) (ch2 : String) (ok2 : Bool),
      (ParallelSender.send_batch_to_all_channels envTimeout psInit
          [{ id := 1 }] ["a", "b"]).2 =
        l₁ ++ Event.sendEv true pid ch ok ::
          (l₂ ++ Event.sendEv true pid2 ch2 ok2 :: l₃) →
      ∃ b, Event.poll b ∈ l₂) := by
  intro h
  rcases h [Event.poll false, Event.poll false,
      Event.sendEv false 1 "a" false, Event.sendEv false 1 "b" false,
      Event.persist 1 0, Event.poll false] [] [] 1 "a" false 1 "b" false
      (by decide) with ⟨b, hb⟩
  simp at hb

/-- C7 (amended): the stop flag is polled before each post of the main
loop and once more before entering the retry pass — but not between
retry items. For a monotone (sticky) flag, once any poll reads true, no
send (main or retry) and no persistence event occurs after that poll;
the only events that can still follow are final true polls. A retry
pass that was already entered runs all its items without further
checks. -/
theorem send_batch_stop_spec (env : Env) (s : ParallelSender)
    (posts : List Post) (chs : List String)
    (hmono : ∀ i j : Nat, i ≤ j → env.flag i = true → env.flag j = true)
    (l₁ l₂ : List Event)
    (htr : (ParallelSender.send_batch_to_all_channels env s posts
      chs).2 = l₁ ++ Event.poll true :: l₂) :
    (∀ r2 pid ch ok, Event.sendEv r2 pid ch ok ∉ l₂) ∧
    (∀ pid n, Event.persist pid n ∉ l₂) := by
  cases hb : env.flag s.polls with
  | true =>
      rw [send_batch_stopped_eq env s posts chs hb] at htr
      simp only at htr
      cases l₁ with
      | nil =>
          rw [List.nil_append] at htr
          injection htr with h1 h2
          rw [← h2]
          refine ⟨?_, ?_⟩ <;> intros <;> simp
      | cons e l₁' =>
          injection htr with h1 h2
          have hmem : Event.poll true ∈ ([] : List Event) := by
            rw [h2]
            exact List.mem_append_right _ (List.mem_cons_self _ _)
          simp at hmem
  | false =>
      rw [send_batch_go_eq env s posts chs hb] at htr
      cases l₁ with
      | nil =>
          rw [List.nil_append] at htr
          injection htr with h1 h2
          simp at h1
      | cons e l₁' =>
          rw [List.cons_append] at htr
          injection htr with h1 h2
          rcases append_split h2 with ⟨m, hm1, hm2⟩ | ⟨m, hm1, hm2⟩
          · obtain ⟨hm0, hflag⟩ := mainLoop_poll_true env chs hmono
              posts { s with polls := s.polls + 1 } l₁' m hm1
            subst hm0
            rw [List.nil_append] at hm2
            by_cases hemp : (mainLoop env chs
                { s with polls := s.polls + 1 } posts).2.2.isEmpty
            · rw [if_pos hemp] at hm2
              rw [hm2]
              refine ⟨?_, ?_⟩ <;> intros <;> simp
            · rw [if_neg hemp, if_pos hflag] at hm2
              rw [hm2]
              refine ⟨?_, ?_⟩ <;> intros <;> simp
          · by_cases hemp : (mainLoop env chs
                { s with polls := s.polls + 1 } posts).2.2.isEmpty
            · rw [if_pos hemp] at hm2
              have hmem : Event.poll true ∈ ([] : List Event) := by
                rw [hm2]
                exact List.mem_append_right _ (List.mem_cons_self _ _)
              simp at hmem
            · rw [if_neg hemp] at hm2
              cases hb2 : env.flag (mainLoop env chs
                  { s with polls := s.polls + 1 } posts).1.polls with
              | true =>
                  rw [if_pos (by rw [hb2])] at hm2
                  cases m with
                  | nil =>
                      rw [List.nil_append] at hm2
                      injection hm2 with hh1 hh2
                      rw [← hh2]
                      refine ⟨?_, ?_⟩ <;> intros <;> simp
                  | cons e2 m' =>
                      injection hm2 with hh1 hh2
                      have hmem : Event.poll true ∈ ([] : List Event) := by
                        rw [hh2]
                        exact List.mem_append_right _
                          (List.mem_cons_self _ _)
                      simp at hmem
              | false =>
                  have hneg : ¬ (env.flag (mainLoop env chs
                      { s with polls := s.polls + 1 }
                      posts).1.polls = true) := by
                    rw [hb2]
                    simp
                  rw [if_neg hneg] at hm2
                  cases m with
                  | nil =>
                      rw [List.nil_append] at hm2
                      injection hm2 with hh1 hh2
                      simp at hh1
                  | cons e2 m' =>
                      injection hm2 with hh1 hh2
                      have hmem : Event.poll true ∈
                          (retryLoop env posts
                            { (mainLoop env chs
                                { s with polls := s.polls + 1 }
                                posts).1 with
                              polls := (mainLoop env chs
                                { s with polls := s.polls + 1 }
                                posts).1.polls + 1 }
                            (mainLoop env chs
                              { s with polls := s.polls + 1 }
                              posts).2.2).2 := by
                        rw [hh2]
                        exact List.mem_append_right _
                          (List.mem_cons_self _ _)
                      exact absurd hmem
                        ((retryLoop_events env posts _ _).2.1 true)

/-- C7 (amended) witness: with the stop flag set from the start the
whole batch trace is a single true poll, after which no send and no
persistence event occurs. -/
theorem send_batch_stop_spec_witness :
    (∀ r2 pid ch ok, Event.sendEv r2 pid ch ok ∉ ([] : List Event)) ∧
    (∀ pid n, Event.persist pid n ∉ ([] : List Event)) :=
  send_batch_stop_spec envStopped psInit [{ id := 1 }] ["a"]
    (fun _ _ _ ht => ht) [] [] (by decide)

end BotCore
